import Mathlib

/-! Verification of the Centripy shape-geometry engine (src/centripy.py).

The Python source is embedded shallowly: floats become real numbers, each
shape class becomes a constructor of one inductive type, the methods become
functions on that type, and the mutable fields of the single application
object become an explicit state record transformed by the event handlers.
-/

open Classical

noncomputable section

namespace Centripy

/-- CANVAS_WIDTH constant of the source. -/
def CANVAS_WIDTH : ℝ := 800

/-- CANVAS_HEIGHT constant of the source. -/
def CANVAS_HEIGHT : ℝ := 600

/-- Embeds `to_canvas_coords`: math coords (origin at canvas center, +y up)
to Tkinter coords (origin top-left, +y down). -/
def to_canvas_coords (x y : ℝ) : ℝ × ℝ :=
  (CANVAS_WIDTH / 2 + x, CANVAS_HEIGHT / 2 - y)

/-- Embeds `to_math_coords`: Tkinter coords to math coords. -/
def to_math_coords (cx cy : ℝ) : ℝ × ℝ :=
  (cx - CANVAS_WIDTH / 2, CANVAS_HEIGHT / 2 - cy)

/-- The closed set of shape variants: one constructor per `Shape` subclass of
the source, carrying exactly the fields its `__init__` stores. -/
inductive Shape where
  | line (x1 y1 x2 y2 : ℝ)
  | rectangle (x1 y1 x2 y2 : ℝ)
  | circle (cx cy r : ℝ)
  | triangle (x1 y1 x2 y2 x3 y3 : ℝ)
  | halfCircle (cx cy r : ℝ)
  | quarterCircle (cx cy r : ℝ)
  | polygon (points : List (ℝ × ℝ))

/-- The sum accumulated by the loop of `PolygonShape.calculate_area`: the pairs
`(points[i], points[(i+1) % n])` visited by the loop are exactly
`pts.zip (pts.rotate 1)`, in the same order. -/
def shoelace_sum (pts : List (ℝ × ℝ)) : ℝ :=
  (pts.zip (pts.rotate 1)).foldl
    (fun acc pq => acc + (pq.1.1 * pq.2.2 - pq.2.1 * pq.1.2)) 0

/-- Embeds the `calculate_area` method of each variant. -/
def calculate_area : Shape → ℝ
  | .line _ _ _ _ => 0
  | .rectangle x1 y1 x2 y2 => |x2 - x1| * |y2 - y1|
  | .circle _ _ r => Real.pi * r ^ 2
  | .triangle x1 y1 x2 y2 x3 y3 =>
      |(x1 * (y2 - y3) + x2 * (y3 - y1) + x3 * (y1 - y2)) / 2|
  | .halfCircle _ _ r => 0.5 * Real.pi * r ^ 2
  | .quarterCircle _ _ r => 0.25 * Real.pi * r ^ 2
  | .polygon pts => |shoelace_sum pts| / 2

/-- Embeds the `calculate_centroid` method of each variant.  The polygon case
guards on `abs(A) < 1e-12` and otherwise divides the two loop sums by `6 * A`,
as in the source. -/
def calculate_centroid : Shape → ℝ × ℝ
  | .line x1 y1 x2 y2 => ((x1 + x2) / 2, (y1 + y2) / 2)
  | .rectangle x1 y1 x2 y2 => ((x1 + x2) / 2, (y1 + y2) / 2)
  | .circle cx cy _ => (cx, cy)
  | .triangle x1 y1 x2 y2 x3 y3 => ((x1 + x2 + x3) / 3, (y1 + y2 + y3) / 3)
  | .halfCircle cx cy r => (cx, cy + (-r + (4 * r) / (3 * Real.pi)))
  | .quarterCircle cx cy r =>
      (cx + (4 * r) / (3 * Real.pi), cy + (4 * r) / (3 * Real.pi))
  | .polygon pts =>
      if |calculate_area (.polygon pts)| < 1e-12 then (0, 0)
      else
        ((pts.zip (pts.rotate 1)).foldl
            (fun acc pq =>
              acc + (pq.1.1 + pq.2.1) * (pq.1.1 * pq.2.2 - pq.2.1 * pq.1.2)) 0
          / (6 * calculate_area (.polygon pts)),
         (pts.zip (pts.rotate 1)).foldl
            (fun acc pq =>
              acc + (pq.1.2 + pq.2.2) * (pq.1.1 * pq.2.2 - pq.2.1 * pq.1.2)) 0
          / (6 * calculate_area (.polygon pts)))

/-- Python `min(x :: l)`: fold `min` over the tail starting from the head. -/
def list_min (x : ℝ) (l : List ℝ) : ℝ := l.foldl min x

/-- Python `max(x :: l)`: fold `max` over the tail starting from the head. -/
def list_max (x : ℝ) (l : List ℝ) : ℝ := l.foldl max x

/-- Embeds the `bounding_box` method of each variant, returning
`(xmin, ymin, xmax, ymax)` in math coords.  `PolygonShape.bounding_box` calls
Python `min`/`max` on the coordinate lists, which raises `ValueError` when the
point list is empty; that error case is modelled as `none`. -/
def bounding_box : Shape → Option (ℝ × ℝ × ℝ × ℝ)
  | .line x1 y1 x2 y2 => some (min x1 x2, min y1 y2, max x1 x2, max y1 y2)
  | .rectangle x1 y1 x2 y2 => some (min x1 x2, min y1 y2, max x1 x2, max y1 y2)
  | .circle cx cy r => some (cx - r, cy - r, cx + r, cy + r)
  | .triangle x1 y1 x2 y2 x3 y3 =>
      some (min (min x1 x2) x3, min (min y1 y2) y3,
            max (max x1 x2) x3, max (max y1 y2) y3)
  | .halfCircle cx cy r => some (cx - r, cy - r, cx + r, cy + r)
  | .quarterCircle cx cy r => some (cx - r, cy - r, cx + r, cy + r)
  | .polygon pts =>
      match pts with
      | [] => none
      | q :: qs =>
          some (list_min q.1 (qs.map Prod.fst), list_min q.2 (qs.map Prod.snd),
                list_max q.1 (qs.map Prod.fst), list_max q.2 (qs.map Prod.snd))

/-- Embeds `Shape.is_point_inside`: membership of `(x, y)` in the bounding box,
inclusive on all four sides.  The source unconditionally unpacks the box, so a
shape without a box (empty polygon) would raise in Python; here that case is
no containment. -/
def is_point_inside (s : Shape) (x y : ℝ) : Prop :=
  match bounding_box s with
  | some (xmin, ymin, xmax, ymax) => xmin ≤ x ∧ x ≤ xmax ∧ ymin ≤ y ∧ y ≤ ymax
  | none => False

/-- The `params` dictionary of a serialized shape: one constructor per field
set appearing in the `to_dict` methods. -/
inductive Params where
  | line (x1 y1 x2 y2 : ℝ)
  | rectangle (x1 y1 x2 y2 : ℝ)
  | circle (cx cy r : ℝ)
  | triangle (x1 y1 x2 y2 x3 y3 : ℝ)
  | halfCircle (cx cy r : ℝ)
  | quarterCircle (cx cy r : ℝ)
  | polygon (points : List (ℝ × ℝ))

/-- A serialized shape record: the dictionary with a `type` tag string and a
`params` field produced by `to_dict` and consumed by `Shape.from_dict`. -/
structure TaggedRecord where
  type : String
  params : Params

/-- Embeds the `to_dict` method of each variant. -/
def to_dict : Shape → TaggedRecord
  | .line x1 y1 x2 y2 => ⟨"LineShape", .line x1 y1 x2 y2⟩
  | .rectangle x1 y1 x2 y2 => ⟨"RectangleShape", .rectangle x1 y1 x2 y2⟩
  | .circle cx cy r => ⟨"CircleShape", .circle cx cy r⟩
  | .triangle x1 y1 x2 y2 x3 y3 => ⟨"TriangleShape", .triangle x1 y1 x2 y2 x3 y3⟩
  | .halfCircle cx cy r => ⟨"HalfCircleShape", .halfCircle cx cy r⟩
  | .quarterCircle cx cy r => ⟨"QuarterCircleShape", .quarterCircle cx cy r⟩
  | .polygon pts => ⟨"PolygonShape", .polygon pts⟩

/-- Embeds `Shape.from_dict`: dispatch on the `type` tag string, returning
`none` for an unrecognized tag exactly as the source returns `None`.  A
recognized tag whose `params` do not carry that variant's fields would raise a
`TypeError` in Python (the constructor is called with mismatched keyword
arguments); that unreachable-under-`to_dict` case is also modelled as `none`. -/
def from_dict (d : TaggedRecord) : Option Shape :=
  if d.type = "LineShape" then
    match d.params with
    | .line x1 y1 x2 y2 => some (.line x1 y1 x2 y2)
    | _ => none
  else if d.type = "RectangleShape" then
    match d.params with
    | .rectangle x1 y1 x2 y2 => some (.rectangle x1 y1 x2 y2)
    | _ => none
  else if d.type = "CircleShape" then
    match d.params with
    | .circle cx cy r => some (.circle cx cy r)
    | _ => none
  else if d.type = "TriangleShape" then
    match d.params with
    | .triangle x1 y1 x2 y2 x3 y3 => some (.triangle x1 y1 x2 y2 x3 y3)
    | _ => none
  else if d.type = "HalfCircleShape" then
    match d.params with
    | .halfCircle cx cy r => some (.halfCircle cx cy r)
    | _ => none
  else if d.type = "QuarterCircleShape" then
    match d.params with
    | .quarterCircle cx cy r => some (.quarterCircle cx cy r)
    | _ => none
  else if d.type = "PolygonShape" then
    match d.params with
    | .polygon pts => some (.polygon pts)
    | _ => none
  else
    none

/-- The seven variant tag strings recognized by `Shape.from_dict`. -/
def recognized_tags : List String :=
  ["LineShape", "RectangleShape", "CircleShape", "TriangleShape",
   "HalfCircleShape", "QuarterCircleShape", "PolygonShape"]

/-- Embeds `import_shapes` after the file has been read and parsed: every
record decoded by `Shape.from_dict` is collected into `imported_shapes` (the
`None` results are skipped, with a printed diagnostic) and the result is
appended to the existing collection by `self.shapes.extend(...)`. -/
def import_shapes (shapes : List Shape) (recs : List TaggedRecord) : List Shape :=
  shapes ++ recs.filterMap from_dict

/-- The six mouse tools of the shape combobox (`shape_choices` in the source). -/
inductive Tool where
  | line
  | rectangle
  | circle
  | triangle
  | halfCircle
  | quarterCircle

/-- The `needed_points` dictionary of `on_left_release`. -/
def needed_points : Tool → ℕ
  | .line => 2
  | .rectangle => 2
  | .circle => 2
  | .triangle => 3
  | .halfCircle => 2
  | .quarterCircle => 2

/-- Python `math.dist`: the Euclidean distance between two points. -/
def pyDist (p q : ℝ × ℝ) : ℝ :=
  Real.sqrt ((p.1 - q.1) ^ 2 + (p.2 - q.2) ^ 2)

/-- The mutable fields of `CentroidApp` relevant to the event handlers:
the shape collection, the active tool, the accumulated click points (in math
coords), whether a preview canvas item exists, and the delete-mode flag. -/
structure AppState where
  shapes : List Shape
  current_tool : Option Tool
  click_points : List (ℝ × ℝ)
  preview_item : Bool
  delete_mode : Bool

/-- The shape-construction dispatch of `on_left_release`.  Each branch
tuple-unpacks `self.click_points` against the exact arity shown, so any other
point count would raise `ValueError` in Python; that case is `none`.
For the circle family the second point only defines the radius
`r = math.dist(point1, point2)`. -/
def construct_shape : Tool → List (ℝ × ℝ) → Option Shape
  | .line, [(x1, y1), (x2, y2)] => some (.line x1 y1 x2 y2)
  | .rectangle, [(x1, y1), (x2, y2)] => some (.rectangle x1 y1 x2 y2)
  | .circle, [(cx, cy), (rx, ry)] =>
      some (.circle cx cy (pyDist (cx, cy) (rx, ry)))
  | .halfCircle, [(cx, cy), (rx, ry)] =>
      some (.halfCircle cx cy (pyDist (cx, cy) (rx, ry)))
  | .quarterCircle, [(cx, cy), (rx, ry)] =>
      some (.quarterCircle cx cy (pyDist (cx, cy) (rx, ry)))
  | .triangle, [(x1, y1), (x2, y2), (x3, y3)] =>
      some (.triangle x1 y1 x2 y2 x3 y3)
  | _, _ => none

/-- Embeds `on_left_release`: no active tool is a no-op; fewer accumulated
points than the tool needs returns with the state untouched; otherwise the
constructed shape is appended and the session (tool, points, preview) is
cleared.  A `construct_shape` failure stands for the Python `ValueError` on
tuple unpacking, which aborts the handler before any state is mutated. -/
def on_left_release (st : AppState) : AppState :=
  match st.current_tool with
  | none => st
  | some tool =>
      if st.click_points.length < needed_points tool then st
      else
        match construct_shape tool st.click_points with
        | some s =>
            ⟨st.shapes ++ [s], none, [], false, st.delete_mode⟩
        | none => st

/-- The delete-mode scan of `on_left_click`: walk `reversed(self.shapes)` with
`enumerate(..., start=1)` and return the 1-based reversed index of the first
shape whose bounding box contains the probe, if any. -/
def find_hit_rev : List Shape → ℝ → ℝ → Option ℕ
  | [], _, _ => none
  | s :: rest, x, y =>
      if is_point_inside s x y then some 1
      else (find_hit_rev rest x y).map (fun i => i + 1)

/-- The deletion performed by `on_left_click` in delete mode: on a hit at
reversed index `i`, `self.shapes.pop(len(self.shapes) - i)` removes that
element; on no hit the collection is unchanged. -/
def pop_hit (shapes : List Shape) (x y : ℝ) : List Shape :=
  match find_hit_rev shapes.reverse x y with
  | none => shapes
  | some i => shapes.eraseIdx (shapes.length - i)

/-- Embeds `on_left_click` with the event already translated to math coords:
in delete mode the click is a deletion probe and the handler returns (the
delete-mode flag is left on); otherwise the point is appended to
`self.click_points`. -/
def on_left_click (st : AppState) (x y : ℝ) : AppState :=
  if st.delete_mode then
    ⟨pop_hit st.shapes x y, st.current_tool, st.click_points, st.preview_item,
     st.delete_mode⟩
  else
    ⟨st.shapes, st.current_tool, st.click_points ++ [(x, y)], st.preview_item,
     st.delete_mode⟩

/-- Outcome of the add-shape-by-coordinates dialog submission. -/
inductive SubmitResult where
  | error (msg : String)
  | ok

/-- Embeds `on_submit` of `add_shape_by_coords_dialog`, after the two entry
strings have been parsed into the point count `n` and the coordinate pairs
`parts` (text-parsing failures are elided).  The source checks `if n <= 3`
and reports the message shown here; with matching counts it appends
`PolygonShape(points)`. -/
def on_submit (shapes : List Shape) (n : ℤ) (parts : List (ℝ × ℝ)) :
    List Shape × SubmitResult :=
  if n ≤ 3 then (shapes, .error ("Requires at least 4 points."))
  else if (parts.length : ℤ) ≠ n then
    (shapes, .error ("pair count mismatch"))
  else (shapes ++ [.polygon parts], .ok)

/-- The `total_area` accumulator of `calculate_composite_centroid`. -/
def total_area (shapes : List Shape) : ℝ :=
  shapes.foldl (fun acc s => acc + calculate_area s) 0

/-- The `sum_xA` accumulator: `cx * A` summed over the collection. -/
def sum_xA (shapes : List Shape) : ℝ :=
  shapes.foldl (fun acc s => acc + (calculate_centroid s).1 * calculate_area s) 0

/-- The `sum_yA` accumulator: `cy * A` summed over the collection. -/
def sum_yA (shapes : List Shape) : ℝ :=
  shapes.foldl (fun acc s => acc + (calculate_centroid s).2 * calculate_area s) 0

/-- Embeds `calculate_composite_centroid`: `none` is the "(N/A, N/A)" label,
shown for an empty collection and whenever `abs(total_area) < 1e-9`; otherwise
the label shows `(sum_xA / total_area, sum_yA / total_area)`. -/
def calculate_composite_centroid (shapes : List Shape) : Option (ℝ × ℝ) :=
  if shapes.isEmpty then none
  else if |total_area shapes| < 1e-9 then none
  else some (sum_xA shapes / total_area shapes, sum_yA shapes / total_area shapes)

/-- The bounding box of `s`, when defined, is returned in the order
`(xmin, ymin, xmax, ymax)`. -/
def bbox_ordered (s : Shape) : Prop :=
  ∀ xmin ymin xmax ymax, bounding_box s = some (xmin, ymin, xmax, ymax) →
    xmin ≤ xmax ∧ ymin ≤ ymax

/-- The circle-family variants carry a nonnegative radius; every other variant
satisfies this trivially. -/
def nonneg_radius : Shape → Prop
  | .circle _ _ r => 0 ≤ r
  | .halfCircle _ _ r => 0 ≤ r
  | .quarterCircle _ _ r => 0 ≤ r
  | _ => True

/-- Decoding inverts encoding on every variant. -/
theorem from_dict_to_dict (s : Shape) : from_dict (to_dict s) = some s := by
  cases s <;> rfl

/-- A record whose tag is not one of the seven recognized strings decodes to
`none`. -/
theorem from_dict_unrecognized (d : TaggedRecord) (h : d.type ∉ recognized_tags) :
    from_dict d = none := by
  simp only [recognized_tags, List.mem_cons, List.not_mem_nil, or_false,
    not_or] at h
  obtain ⟨h1, h2, h3, h4, h5, h6, h7⟩ := h
  simp only [from_dict, if_neg h1, if_neg h2, if_neg h3, if_neg h4, if_neg h5,
    if_neg h6, if_neg h7]

/-- Folding `min` from a start below the start of a `max` fold stays below. -/
theorem list_min_le_list_max (l : List ℝ) :
    ∀ x y : ℝ, x ≤ y → list_min x l ≤ list_max y l := by
  induction l with
  | nil => intro x y h; simpa [list_min, list_max] using h
  | cons a t ih =>
      intro x y h
      have h1 : min x a ≤ max y a :=
        le_trans (le_trans (min_le_left x a) h) (le_max_left y a)
      simpa [list_min, list_max] using ih (min x a) (max y a) h1

/-- C9: the coordinate mapper functions `to_canvas_coords` and
`to_math_coords` with the fixed extent W = 800, H = 600 are exact inverses of
each other in both directions. -/
theorem coordinate_mapper_inverse : ∀ x y : ℝ,
    to_math_coords (to_canvas_coords x y).1 (to_canvas_coords x y).2 = (x, y) ∧
    to_canvas_coords (to_math_coords x y).1 (to_math_coords x y).2 = (x, y) := by
  intro x y
  constructor <;>
    simp only [to_canvas_coords, to_math_coords, Prod.mk.injEq] <;>
    constructor <;> ring

/-- C4: for every shape of every variant, regardless of its parameter values,
`calculate_area` returns a nonnegative value. -/
theorem area_nonneg : ∀ s : Shape, 0 ≤ calculate_area s := by
  intro s
  cases s <;> simp only [calculate_area] <;> positivity

/-- C2: for every shape of each of the seven variants, decoding the tagged
record produced by encoding it yields the same shape field-for-field:
`from_dict (to_dict s) = some s`. -/
theorem serialization_roundtrip : ∀ s : Shape, from_dict (to_dict s) = some s :=
  fun s => from_dict_to_dict s

/-- C3: evaluation of the add-by-coordinates dialog gate.  Submitting n = 3
points is rejected with the message shown (the claim and the adjacent source
comment say 3 points should succeed), n = 2 is rejected, and n = 4 appends the
polygon. -/
theorem dialog_polygon_gate :
    on_submit [] 3 [(0, 0), (4, 0), (0, 3)]
        = ([], SubmitResult.error ("Requires at least 4 points.")) ∧
    on_submit [] 2 [(0, 0), (4, 0)]
        = ([], SubmitResult.error ("Requires at least 4 points.")) ∧
    on_submit [] 4 [(0, 0), (4, 0), (4, 3), (0, 3)]
        = ([Shape.polygon [(0, 0), (4, 0), (4, 3), (0, 3)]], SubmitResult.ok) := by
  refine ⟨?_, ?_, ?_⟩ <;> norm_num [on_submit]

/-- C5 counterexample: a circle with radius -1 (reachable by deserialization,
whose numeric inputs are unconstrained) has bounding box (1, 1, -1, -1), so
the claimed invariant xmin ≤ xmax fails. -/
theorem bbox_claim_fails_neg_radius :
    ¬ bbox_ordered (Shape.circle 0 0 (-1)) := by
  intro h
  have hb : bounding_box (Shape.circle 0 0 (-1)) = some (1, 1, -1, -1) := by
    norm_num [bounding_box]
  have h2 := h 1 1 (-1) (-1) hb
  linarith [h2.1]

/-- C5 (amended): for every shape whose circle-family radius is nonnegative
(Line, Rectangle, Triangle and Polygon shapes unconditionally), any bounding
box returned satisfies xmin ≤ xmax and ymin ≤ ymax. -/
theorem bbox_ordered_of_nonneg_radius (s : Shape) (h : nonneg_radius s) :
    bbox_ordered s := by
  cases s with
  | line x1 y1 x2 y2 =>
      intro xmin ymin xmax ymax heq
      simp only [bounding_box, Option.some.injEq, Prod.mk.injEq] at heq
      obtain ⟨rfl, rfl, rfl, rfl⟩ := heq
      exact ⟨min_le_max, min_le_max⟩
  | rectangle x1 y1 x2 y2 =>
      intro xmin ymin xmax ymax heq
      simp only [bounding_box, Option.some.injEq, Prod.mk.injEq] at heq
      obtain ⟨rfl, rfl, rfl, rfl⟩ := heq
      exact ⟨min_le_max, min_le_max⟩
  | circle cx cy r =>
      intro xmin ymin xmax ymax heq
      have hr : (0 : ℝ) ≤ r := h
      simp only [bounding_box, Option.some.injEq, Prod.mk.injEq] at heq
      obtain ⟨rfl, rfl, rfl, rfl⟩ := heq
      constructor <;> linarith
  | triangle x1 y1 x2 y2 x3 y3 =>
      intro xmin ymin xmax ymax heq
      simp only [bounding_box, Option.some.injEq, Prod.mk.injEq] at heq
      obtain ⟨rfl, rfl, rfl, rfl⟩ := heq
      exact ⟨le_trans (min_le_right _ _) (le_max_right _ _),
             le_trans (min_le_right _ _) (le_max_right _ _)⟩
  | halfCircle cx cy r =>
      intro xmin ymin xmax ymax heq
      have hr : (0 : ℝ) ≤ r := h
      simp only [bounding_box, Option.some.injEq, Prod.mk.injEq] at heq
      obtain ⟨rfl, rfl, rfl, rfl⟩ := heq
      constructor <;> linarith
  | quarterCircle cx cy r =>
      intro xmin ymin xmax ymax heq
      have hr : (0 : ℝ) ≤ r := h
      simp only [bounding_box, Option.some.injEq, Prod.mk.injEq] at heq
      obtain ⟨rfl, rfl, rfl, rfl⟩ := heq
      constructor <;> linarith
  | polygon pts =>
      cases pts with
      | nil => intro xmin ymin xmax ymax heq; simp [bounding_box] at heq
      | cons q qs =>
          intro xmin ymin xmax ymax heq
          simp only [bounding_box, Option.some.injEq, Prod.mk.injEq] at heq
          obtain ⟨rfl, rfl, rfl, rfl⟩ := heq
          exact ⟨list_min_le_list_max _ _ _ le_rfl,
                 list_min_le_list_max _ _ _ le_rfl⟩

/-- C5 (amended) witness: a circle of radius 2 satisfies the ordered
bounding-box property. -/
theorem bbox_ordered_witness : bbox_ordered (Shape.circle 0 0 2) :=
  bbox_ordered_of_nonneg_radius (Shape.circle 0 0 2) (by norm_num [nonneg_radius])

/-- C1: the composite centroid equals the area-weighted average whenever the
collection is non-empty and the total area is at least 1e-9 in absolute value,
and is reported not available for an empty collection or a near-zero total
area. -/
theorem composite_centroid_spec (shapes : List Shape) :
    (shapes ≠ [] → 1e-9 ≤ |total_area shapes| →
      calculate_composite_centroid shapes
        = some (sum_xA shapes / total_area shapes,
                sum_yA shapes / total_area shapes)) ∧
    (shapes = [] ∨ |total_area shapes| < 1e-9 →
      calculate_composite_centroid shapes = none) := by
  constructor
  · intro hne hge
    rw [calculate_composite_centroid, if_neg (by simpa using hne),
      if_neg (not_lt.mpr hge)]
  · rintro (rfl | hlt)
    · rfl
    · rw [calculate_composite_centroid]
      by_cases he : shapes.isEmpty
      · rw [if_pos he]
      · rw [if_neg he, if_pos hlt]

/-- C1 witness: a single 10 by 10 rectangle yields centroid (5, 5); the empty
collection and a single zero-area line both yield the unavailable result. -/
theorem composite_centroid_witness :
    calculate_composite_centroid [Shape.rectangle 0 0 10 10] = some (5, 5) ∧
    calculate_composite_centroid [] = none ∧
    calculate_composite_centroid [Shape.line 0 0 2 2] = none := by
  refine ⟨?_, ?_, ?_⟩
  · have harea : total_area [Shape.rectangle 0 0 10 10] = 100 := by
      norm_num [total_area, calculate_area]
    have h := (composite_centroid_spec [Shape.rectangle 0 0 10 10]).1
      (by simp) (by rw [harea]; norm_num)
    rw [h, harea]
    norm_num [sum_xA, sum_yA, calculate_area, calculate_centroid]
  · exact (composite_centroid_spec []).2 (Or.inl rfl)
  · exact (composite_centroid_spec [Shape.line 0 0 2 2]).2
      (Or.inr (by norm_num [total_area, calculate_area]))

/-- When no shape in the list contains the probe, the reversed scan finds no
hit. -/
theorem find_hit_rev_none (x y : ℝ) :
    ∀ l : List Shape, (∀ s ∈ l, ¬ is_point_inside s x y) →
      find_hit_rev l x y = none := by
  intro l
  induction l with
  | nil => intro _; rfl
  | cons a t ih =>
      intro h
      rw [find_hit_rev, if_neg (h a (by simp)),
        ih (fun s hs => h s (by simp [hs]))]
      rfl

/-- The reversed scan over `A ++ s :: B` with no hit in `A` and a hit at `s`
returns the 1-based position of `s`. -/
theorem find_hit_rev_append (x y : ℝ) (s : Shape) (hs : is_point_inside s x y) :
    ∀ A B : List Shape, (∀ t ∈ A, ¬ is_point_inside t x y) →
      find_hit_rev (A ++ s :: B) x y = some (A.length + 1) := by
  intro A
  induction A with
  | nil =>
      intro B _
      rw [List.nil_append, find_hit_rev, if_pos hs]
      simp
  | cons a t ih =>
      intro B h
      rw [List.cons_append, find_hit_rev, if_neg (h a (by simp)),
        ih B (fun u hu => h u (by simp [hu]))]
      simp

/-- Removing the element at index `pre.length` of `pre ++ s :: post` removes
exactly `s`. -/
theorem eraseIdx_middle (s : Shape) :
    ∀ pre post : List Shape,
      (pre ++ s :: post).eraseIdx pre.length = pre ++ post := by
  intro pre
  induction pre with
  | nil => intro post; rfl
  | cons a t ih =>
      intro post
      simp only [List.cons_append, List.length_cons, List.eraseIdx_cons_succ,
        ih post]

/-- C6: clicking at a probe point while delete mode is active removes exactly
the most recently inserted shape whose bounding box contains the probe (the
collection is scanned in reverse insertion order), leaves the collection
unchanged when no shape contains the probe, keeps all other state, and leaves
delete mode active.  The hypothesis `hwf` excludes shapes without a bounding
box (an empty polygon), on which the Python scan would raise instead of
scanning past. -/
theorem delete_click_spec (st : AppState) (x y : ℝ)
    (hd : st.delete_mode = true)
    (hwf : ∀ s ∈ st.shapes, bounding_box s ≠ none) :
    (on_left_click st x y).delete_mode = true ∧
    ((∀ s ∈ st.shapes, ¬ is_point_inside s x y) → on_left_click st x y = st) ∧
    (∀ pre s post, st.shapes = pre ++ s :: post → is_point_inside s x y →
      (∀ t ∈ post, ¬ is_point_inside t x y) →
      on_left_click st x y
        = AppState.mk (pre ++ post) st.current_tool st.click_points
            st.preview_item true) := by
  obtain ⟨shapes, tool, pts, prev, dm⟩ := st
  simp only at hd hwf
  subst hd
  refine ⟨by simp [on_left_click], ?_, ?_⟩
  · intro h
    have hfind : find_hit_rev shapes.reverse x y = none :=
      find_hit_rev_none x y shapes.reverse
        (fun s hs => h s (List.mem_reverse.mp hs))
    simp [on_left_click, pop_hit, hfind]
  · intro pre s post hsplit hin hpost
    simp only at hsplit
    subst hsplit
    have hrev : (pre ++ s :: post).reverse = post.reverse ++ s :: pre.reverse := by
      simp
    have hfind : find_hit_rev (pre ++ s :: post).reverse x y
        = some (post.length + 1) := by
      rw [hrev, find_hit_rev_append x y s hin post.reverse pre.reverse
        (fun t ht => hpost t (List.mem_reverse.mp ht))]
      simp
    have hlen : (pre ++ s :: post).length - (post.length + 1) = pre.length := by
      simp only [List.length_append, List.length_cons]
      omega
    simp only [on_left_click, if_pos]
    simp only [pop_hit, hfind, hlen, eraseIdx_middle]

/-- C6 witness: with two stacked 10 by 10 rectangles and a probe at (1, 2),
the deletion click removes the rectangle inserted last and keeps delete mode
on. -/
theorem delete_click_witness :
    on_left_click
        (AppState.mk [Shape.rectangle 0 0 10 10, Shape.rectangle 0 0 10 10]
          none [] false true) 1 2
      = AppState.mk [Shape.rectangle 0 0 10 10] none [] false true := by
  have h := delete_click_spec
    (AppState.mk [Shape.rectangle 0 0 10 10, Shape.rectangle 0 0 10 10]
      none [] false true) 1 2 rfl
    (by
      intro s hs
      simp only [List.mem_cons, List.not_mem_nil, or_false] at hs
      rcases hs with rfl | rfl <;> simp [bounding_box])
  have h2 := h.2.2 [Shape.rectangle 0 0 10 10] (Shape.rectangle 0 0 10 10) []
    rfl (by norm_num [is_point_inside, bounding_box]) (by simp)
  simpa using h2

/-- C7: with an active tool, releasing the mouse commits exactly when the
accumulated point count equals the kind's required count (2, or 3 for the
triangle): the constructed shape is appended and the session is cleared; with
fewer points the state is fully retained.  For the circle-family kinds the
constructed shape's radius is the Euclidean distance of the two points. -/
theorem commit_spec (st : AppState) (k : Tool) (h : st.current_tool = some k) :
    (st.click_points.length = needed_points k →
      ∃ s, construct_shape k st.click_points = some s ∧
        on_left_release st
          = AppState.mk (st.shapes ++ [s]) none [] false st.delete_mode) ∧
    (st.click_points.length < needed_points k → on_left_release st = st) ∧
    (∀ p1 p2 : ℝ × ℝ,
      construct_shape Tool.circle [p1, p2]
          = some (Shape.circle p1.1 p1.2 (pyDist p1 p2)) ∧
      construct_shape Tool.halfCircle [p1, p2]
          = some (Shape.halfCircle p1.1 p1.2 (pyDist p1 p2)) ∧
      construct_shape Tool.quarterCircle [p1, p2]
          = some (Shape.quarterCircle p1.1 p1.2 (pyDist p1 p2))) := by
  obtain ⟨shapes, tool, pts, prev, dm⟩ := st
  simp only at h
  subst h
  refine ⟨?_, ?_, ?_⟩
  · intro hlen
    simp only at hlen
    cases k
    case line =>
      obtain ⟨a, b, rfl⟩ := List.length_eq_two.mp hlen
      obtain ⟨a1, a2⟩ := a; obtain ⟨b1, b2⟩ := b
      exact ⟨_, rfl, rfl⟩
    case rectangle =>
      obtain ⟨a, b, rfl⟩ := List.length_eq_two.mp hlen
      obtain ⟨a1, a2⟩ := a; obtain ⟨b1, b2⟩ := b
      exact ⟨_, rfl, rfl⟩
    case circle =>
      obtain ⟨a, b, rfl⟩ := List.length_eq_two.mp hlen
      obtain ⟨a1, a2⟩ := a; obtain ⟨b1, b2⟩ := b
      exact ⟨_, rfl, rfl⟩
    case triangle =>
      obtain ⟨a, b, c, rfl⟩ := List.length_eq_three.mp hlen
      obtain ⟨a1, a2⟩ := a; obtain ⟨b1, b2⟩ := b; obtain ⟨c1, c2⟩ := c
      exact ⟨_, rfl, rfl⟩
    case halfCircle =>
      obtain ⟨a, b, rfl⟩ := List.length_eq_two.mp hlen
      obtain ⟨a1, a2⟩ := a; obtain ⟨b1, b2⟩ := b
      exact ⟨_, rfl, rfl⟩
    case quarterCircle =>
      obtain ⟨a, b, rfl⟩ := List.length_eq_two.mp hlen
      obtain ⟨a1, a2⟩ := a; obtain ⟨b1, b2⟩ := b
      exact ⟨_, rfl, rfl⟩
  · intro hlt
    simp only at hlt
    simp only [on_left_release]
    rw [if_pos hlt]
  · intro p1 p2
    obtain ⟨a1, a2⟩ := p1; obtain ⟨b1, b2⟩ := p2
    exact ⟨rfl, rfl, rfl⟩

/-- C7 witness: releasing with the circle tool active and two accumulated
points appends one circle of radius dist((0,0),(3,4)) and clears the
session. -/
theorem commit_witness :
    on_left_release
        (AppState.mk [] (some Tool.circle) [(0, 0), (3, 4)] false false)
      = AppState.mk [Shape.circle 0 0 (pyDist (0, 0) (3, 4))] none [] false
          false := by
  have h := commit_spec
    (AppState.mk [] (some Tool.circle) [(0, 0), (3, 4)] false false)
    Tool.circle rfl
  obtain ⟨s, hs, hres⟩ := h.1 rfl
  have hc := (h.2.2 (0, 0) (3, 4)).1
  rw [hs] at hc
  obtain rfl := Option.some.inj hc
  rw [hres]
  simp

/-- C8: importing appends the decoded shapes to the existing collection
(never replacing it); a recognized record is decoded and appended whether it
comes before or after an unrecognized one, the unrecognized record is skipped
without aborting the import, and one recognized plus one unrecognized record
grow the collection by exactly 1. -/
theorem import_spec (shapes : List Shape) (S : Shape) (d : TaggedRecord)
    (h : d.type ∉ recognized_tags) :
    import_shapes shapes [to_dict S, d] = shapes ++ [S] ∧
    import_shapes shapes [d, to_dict S] = shapes ++ [S] ∧
    (import_shapes shapes [to_dict S, d]).length = shapes.length + 1 ∧
    (∀ recs : List TaggedRecord,
      import_shapes shapes recs = shapes ++ recs.filterMap from_dict) := by
  have hd := from_dict_unrecognized d h
  refine ⟨?_, ?_, ?_, fun recs => rfl⟩ <;>
    simp [import_shapes, List.filterMap_cons, hd, from_dict_to_dict]

/-- C8 witness: importing one line record and one record tagged BlobShape into
an empty collection yields exactly the one line shape. -/
theorem import_witness :
    import_shapes [] [to_dict (Shape.line 1 2 3 4),
        TaggedRecord.mk "BlobShape" (Params.line 0 0 0 0)]
      = [Shape.line 1 2 3 4] := by
  have h := (import_spec [] (Shape.line 1 2 3 4)
    (TaggedRecord.mk "BlobShape" (Params.line 0 0 0 0))
    (by simp [recognized_tags])).1
  simpa using h

/-- C10: every circle-family shape committed by the interactive construction
dispatch has radius dist(point1, point2) which is nonnegative, so its bounding
box satisfies xmin ≤ xmax and ymin ≤ ymax. -/
theorem committed_circle_family_bbox (p1 p2 : ℝ × ℝ) (k : Tool)
    (hk : k = Tool.circle ∨ k = Tool.halfCircle ∨ k = Tool.quarterCircle)
    (s : Shape) (hs : construct_shape k [p1, p2] = some s) :
    0 ≤ pyDist p1 p2 ∧ bbox_ordered s := by
  have hr : 0 ≤ pyDist p1 p2 := Real.sqrt_nonneg _
  refine ⟨hr, ?_⟩
  obtain ⟨a1, a2⟩ := p1
  obtain ⟨b1, b2⟩ := p2
  rcases hk with rfl | rfl | rfl <;>
    · simp only [construct_shape, Option.some.injEq] at hs
      obtain rfl := hs.symm
      intro xmin ymin xmax ymax heq
      simp only [bounding_box, Option.some.injEq, Prod.mk.injEq] at heq
      obtain ⟨rfl, rfl, rfl, rfl⟩ := heq
      constructor <;> linarith [hr]

/-- C10 witness: the circle committed from clicks at (0,0) and (3,4) has a
nonnegative radius and an ordered bounding box. -/
theorem committed_circle_family_bbox_witness :
    0 ≤ pyDist (0, 0) (3, 4) ∧
    bbox_ordered (Shape.circle 0 0 (pyDist (0, 0) (3, 4))) :=
  committed_circle_family_bbox (0, 0) (3, 4) Tool.circle (Or.inl rfl) _ rfl

end Centripy
